import Mathlib

/-!
# pregel/avro/legacy.c : schema and value handles over the Avro C codec

A shallow embedding of `src/pregel/avro/legacy.c`.  The file is glue between the Lua C API
and the Avro C library, so the embedding has three layers:

* the **codec** (`avro.h`), which is not part of the repository: every call that the C code
  makes into it is recorded, in order, in a history of `Call` events, and the values the
  codec hands back (pointers, return codes, error text) are read from a parameter `Avro`
  whose answers may depend on the history so far;
* the **host runtime** (`lua.h`, `lauxlib.h`): the argument stack of the running C function,
  and the full userdata blocks allocated so far, with the few API functions the C code uses;
* the **C functions of legacy.c** themselves, translated statement by statement.

Reference counts are read off the history: the count of an object is the number of
references handed out or taken on it minus the number released.

The registry is as `luaopen_pregel_avro_legacy` leaves it: it holds the AvroSchema
metatable, and nothing under the name `avro:AvroValue`, which no line of the file
registers.  So `lua_avro_push_value` attaches no metatable to the userdata it makes, and
`luaL_checkudata(L, 2, MT_AVRO_VALUE)` accepts no value at all.

What is left out: memory errors of the host and the collector running inside an
allocation.  Lua strings are byte strings, and the C code compares them with `strcmp`,
which stops at the first NUL.
-/

namespace AvroLegacy

/-! ## Pointers and codec objects -/

/-- A C pointer: `NULL`, the address of an object of the codec library, or the address of
the block of a full userdata of the host (what `lua_touserdata` gives for it). -/
inductive Ptr
  | null
  | obj (a : Nat)
  | block (id : Nat)
deriving DecidableEq, Repr

/-- The C constant `NULL`. -/
abbrev NULL : Ptr := Ptr.null

/-- The codec type `avro_value_t`: an interface pointer and the self-identity pointer that
is `NULL` while there is no value. -/
structure avro_value_t where
  iface : Ptr
  self : Ptr
deriving DecidableEq, Repr

/-- The eight primitive schema constructors of the codec, `avro_schema_boolean()` to
`avro_schema_string()`. -/
inductive Primitive
  | boolean | bytes | double | float | int | long | null | string
deriving DecidableEq, Repr

/-- One call into the codec library, with its arguments and what it gave back. -/
inductive Call
  /-- A primitive constructor `avro_schema_<k>()` returned `ret`. -/
  | schema_primitive (k : Primitive) (ret : Ptr)
  /-- The call `avro_schema_from_json(json_str, json_len, &schema, &err)` returned `rc` and
  stored `out` in `schema`. -/
  | schema_from_json (json_str : String) (json_len : Nat) (rc : Int) (out : Ptr)
  /-- The call `avro_schema_incref(schema)`. -/
  | schema_incref (schema : Ptr)
  /-- The call `avro_schema_decref(schema)`. -/
  | schema_decref (schema : Ptr)
  /-- The call `avro_generic_class_from_schema(schema)` returned `ret`. -/
  | generic_class_from_schema (schema : Ptr) (ret : Ptr)
  /-- The call `avro_generic_value_new(iface, dest)` returned `rc` and left `out` in `dest`. -/
  | generic_value_new (iface : Ptr) (rc : Int) (out : avro_value_t)
  /-- The call `avro_value_decref(&value)`. -/
  | value_decref (value : avro_value_t)
  /-- The call `avro_value_iface_decref(iface)`. -/
  | value_iface_decref (iface : Ptr)
deriving DecidableEq, Repr

/-- The codec library as the C code sees it.  Each answer may depend on the history of the
calls made so far (allocation may fail at one time and succeed at another). -/
structure Avro where
  avro_schema_boolean : List Call → Ptr
  avro_schema_bytes : List Call → Ptr
  avro_schema_double : List Call → Ptr
  avro_schema_float : List Call → Ptr
  avro_schema_int : List Call → Ptr
  avro_schema_long : List Call → Ptr
  avro_schema_null : List Call → Ptr
  avro_schema_string : List Call → Ptr
  /-- Return code and the schema stored through the out-parameter. -/
  avro_schema_from_json : List Call → String → Nat → Int × Ptr
  /-- The generic interface of a schema, `NULL` on failure. -/
  avro_generic_class_from_schema : List Call → Ptr → Ptr
  /-- Return code and the value that `dest` holds when the call returns. -/
  avro_generic_value_new : List Call → Ptr → Int × avro_value_t
  /-- The field read `avro_typeof(schema)`. -/
  avro_typeof : List Call → Ptr → Int
  /-- The name `avro_schema_type_name(schema)`, possibly `NULL`. -/
  avro_schema_type_name : List Call → Ptr → Option String
  /-- The text of the last error. -/
  avro_strerror : List Call → String

/-! ## Reference counts, read off the history -/

/-- What one call adds to the reference count of the schema `p`: the constructors and a
successful parse hand out one reference, `incref` takes one, `decref` gives one back. -/
def Call.schema_delta (p : Ptr) : Call → Int
  | .schema_primitive _ ret => if ret = p then 1 else 0
  | .schema_from_json _ _ rc out => if rc = 0 ∧ out = p then 1 else 0
  | .schema_incref s => if s = p then 1 else 0
  | .schema_decref s => if s = p then -1 else 0
  | _ => 0

/-- The reference count of the schema `p` after the calls of `log`. -/
def schema_refcount (log : List Call) (p : Ptr) : Int :=
  (log.map (Call.schema_delta p)).sum

/-- How often `avro_generic_class_from_schema` has been called. -/
def derivations (log : List Call) : Nat :=
  log.countP fun c => match c with
    | .generic_class_from_schema _ _ => true
    | _ => false

/-- How often `avro_schema_from_json` has been called. -/
def parser_calls (log : List Call) : Nat :=
  log.countP fun c => match c with
    | .schema_from_json _ _ _ _ => true
    | _ => false

/-- How often `avro_value_decref` has been called on the value `v`. -/
def value_releases (log : List Call) (v : avro_value_t) : Nat :=
  log.count (Call.value_decref v)

/-! ## The host runtime -/

/-- The registry key of the AvroValue metatable. -/
def MT_AVRO_VALUE : String := "avro:AvroValue"

/-- The registry key of the AvroSchema metatable. -/
def MT_AVRO_SCHEMA : String := "avro:AvroSchema"

/-- The C struct `LuaAvroValue`. -/
structure LuaAvroValue where
  value : avro_value_t
  should_decref : Bool
deriving DecidableEq, Repr

/-- The C struct `LuaAvroSchema`. -/
structure LuaAvroSchema where
  schema : Ptr
  iface : Ptr
deriving DecidableEq, Repr

/-- A Lua table, as far as this module looks at one: the metatable registered under a name
in the registry, or some other table. -/
inductive Table
  | registered (tname : String)
  | other (n : Nat)
deriving DecidableEq, Repr

/-- The metatable names `luaopen_pregel_avro_legacy` registers with `luaL_newmetatable`:
the AvroSchema one, and no other. -/
def luaopen_pregel_avro_legacy : List String := [MT_AVRO_SCHEMA]

/-- The registry entry under a metatable name, once the module is loaded: the metatable
for a name the module registered, nothing (`nil`) for any other name. -/
def registry (tname : String) : Option Table :=
  if tname ∈ luaopen_pregel_avro_legacy then some (.registered tname) else none

/-- A full userdata block: the `LuaAvroSchema` struct made by `lua_avro_push_schema`, the
`LuaAvroValue` struct made by `lua_avro_push_value`, or a userdata of other origin with
its metatable, if it has one. -/
inductive Udata
  | AvroSchema (s : LuaAvroSchema)
  | AvroValue (v : LuaAvroValue)
  | foreign (mt : Option Nat)
deriving DecidableEq, Repr

/-- The metatable attached to a userdata block.  The two functions of legacy.c attach, by
`luaL_getmetatable` and `lua_setmetatable`, what the registry holds under the name: the
AvroSchema metatable for a schema block, and `nil`, that is no metatable, for a value
block. -/
def Udata.metatable : Udata → Option Table
  | .AvroSchema _ => registry MT_AVRO_SCHEMA
  | .AvroValue _ => registry MT_AVRO_VALUE
  | .foreign mt => mt.map Table.other

/-- A Lua value.  Numbers are the integer-valued ones of at most fourteen digits, whose
conversion to a string is the plain decimal text; `other` stands for functions and
threads. -/
inductive TValue
  | nil
  | boolean (b : Bool)
  | number (n : Int)
  | string (s : String)
  | lightuserdata (p : Ptr)
  | userdata (id : Nat)
  | table (t : Table)
  | other (n : Nat)
deriving DecidableEq, Repr

/-- The state `L` a C function runs in: its stack (the arguments first), the userdata
blocks of the host, and the history of the codec. -/
structure lua_State where
  stack : List TValue
  heap : List Udata
  avro : List Call
deriving DecidableEq, Repr

/-- How a C function ends: `return n`, with the top `n` stack values as results; a
`lua_error`, with the error value on top of the stack; or the argument error that
`luaL_checkudata` raises for argument `narg`. -/
inductive Ret
  | returned (n : Nat)
  | raised
  | typerror (narg : Nat) (tname : String)
deriving DecidableEq, Repr

/-- The stack slot an index names: positive from the bottom, negative from the top. -/
def index2adr (L : lua_State) (idx : Int) : Option TValue :=
  if 0 < idx then L.stack[idx.toNat - 1]?
  else if idx < 0 then L.stack.reverse[(-idx).toNat - 1]?
  else none

/-- Number of values on the stack. -/
def lua_gettop (L : lua_State) : Nat := L.stack.length

/-- Push a value. -/
def lua_push (L : lua_State) (v : TValue) : lua_State :=
  { L with stack := L.stack ++ [v] }

/-- The API function `lua_pushstring`, which pushes `nil` for a `NULL` string. -/
def lua_pushstring (L : lua_State) (s : Option String) : lua_State :=
  match s with
  | some t => lua_push L (.string t)
  | none => lua_push L .nil

/-- The API call `lua_pushliteral`. -/
def lua_pushliteral (L : lua_State) (s : String) : lua_State := lua_push L (.string s)

/-- The API function `lua_pushnumber`. -/
def lua_pushnumber (L : lua_State) (n : Int) : lua_State := lua_push L (.number n)

/-- The API function `lua_pushlightuserdata`. -/
def lua_pushlightuserdata (L : lua_State) (p : Ptr) : lua_State := lua_push L (.lightuserdata p)

/-- The API function `lua_pushvalue`: push a copy of the value at `idx`. -/
def lua_pushvalue (L : lua_State) (idx : Int) : lua_State :=
  lua_push L ((index2adr L idx).getD .nil)

/-- The API function `lua_pop`. -/
def lua_pop (L : lua_State) (n : Nat) : lua_State :=
  { L with stack := L.stack.take (L.stack.length - n) }

/-- The API function `lua_error`: raise the value on top of the stack. -/
def lua_error (L : lua_State) : Ret × lua_State := (.raised, L)

/-- The API function `lua_isstring`: true for a string and for a number, which is always
convertible to a string. -/
def lua_isstring (L : lua_State) (idx : Int) : Bool :=
  match index2adr L idx with
  | some (.string _) => true
  | some (.number _) => true
  | _ => false

/-- The API function `lua_isuserdata`: true for a full and for a light userdata. -/
def lua_isuserdata (L : lua_State) (idx : Int) : Bool :=
  match index2adr L idx with
  | some (.userdata _) => true
  | some (.lightuserdata _) => true
  | _ => false

/-- The text Lua converts a number to. -/
def lua_number2str (n : Int) : String := toString n

/-- The API function `lua_tolstring` at a positive index: the string and its length; a
number is converted, and the stack slot is changed to the string. -/
def lua_tolstring (L : lua_State) (idx : Nat) : Option (String × Nat) × lua_State :=
  match L.stack[idx - 1]? with
  | some (.string s) => (some (s, s.length), L)
  | some (.number n) =>
      (some (lua_number2str n, (lua_number2str n).length),
        { L with stack := L.stack.set (idx - 1) (.string (lua_number2str n)) })
  | _ => (none, L)

/-- The API function `lua_touserdata`: the block address of a full userdata, the pointer of
a light userdata, `NULL` otherwise. -/
def lua_touserdata (L : lua_State) (idx : Int) : Ptr :=
  match index2adr L idx with
  | some (.userdata id) => .block id
  | some (.lightuserdata p) => p
  | _ => NULL

/-- The API function `lua_getmetatable`: push the metatable of the value at `idx` and
return true, or push nothing and return false.  Only called on userdata here; light
userdata have no metatable. -/
def lua_getmetatable (L : lua_State) (idx : Int) : Bool × lua_State :=
  match index2adr L idx with
  | some (.userdata id) =>
      match L.heap[id]?.bind Udata.metatable with
      | some t => (true, lua_push L (.table t))
      | none => (false, L)
  | _ => (false, L)

/-- The call `lua_getfield(L, LUA_REGISTRYINDEX, tname)`: push the registry entry, `nil`
if there is none. -/
def lua_getfield_registry (L : lua_State) (tname : String) : lua_State :=
  match registry tname with
  | some t => lua_push L (.table t)
  | none => lua_push L .nil

/-- The API function `lua_rawequal`. -/
def lua_rawequal (L : lua_State) (i j : Int) : Bool :=
  match index2adr L i, index2adr L j with
  | some a, some b => a = b
  | _, _ => false

/-- The library function `luaL_checkudata(L, ud, tname)`: the userdata at `ud` when it has
a metatable and that metatable is raw-equal to the registry entry under `tname`; nothing
otherwise, and the call then raises an argument error.  A value without a metatable, and
any value when the registry holds nothing under `tname`, is refused. -/
def luaL_checkudata (L : lua_State) (ud : Int) (tname : String) : Option Nat :=
  match index2adr L ud with
  | some (.userdata id) =>
      match L.heap[id]?.bind Udata.metatable with
      | some t => if registry tname = some t then some id else none
      | none => none
  | _ => none

/-- The call `luaL_checkudata(L, idx, MT_AVRO_SCHEMA)`, with the struct the result points
to. -/
def luaL_checkudata_schema (L : lua_State) (idx : Int) : Option (Nat × LuaAvroSchema) :=
  match luaL_checkudata L idx MT_AVRO_SCHEMA with
  | some id =>
      match L.heap[id]? with
      | some (.AvroSchema s) => some (id, s)
      | _ => none
  | none => none

/-- The call `luaL_checkudata(L, idx, MT_AVRO_VALUE)`, with the struct the result points
to. -/
def luaL_checkudata_value (L : lua_State) (idx : Int) : Option (Nat × LuaAvroValue) :=
  match luaL_checkudata L idx MT_AVRO_VALUE with
  | some id =>
      match L.heap[id]? with
      | some (.AvroValue v) => some (id, v)
      | _ => none
  | none => none

/-- The struct a `LuaAvroSchema *` points to: the block of an AvroSchema userdata. -/
def LuaAvroSchema_at (L : lua_State) (p : Ptr) : Option LuaAvroSchema :=
  match p with
  | .block id =>
      match L.heap[id]? with
      | some (.AvroSchema s) => some s
      | _ => none
  | _ => none

/-- Record a call of the codec. -/
def record (L : lua_State) (c : Call) : lua_State :=
  { L with avro := L.avro ++ [c] }

/-- The results of a finished call: the top `n` values after `return n`. -/
def results : Ret × lua_State → Option (List TValue)
  | (.returned n, L) => some (L.stack.drop (L.stack.length - n))
  | _ => none

/-- The error value of a call that ended in `lua_error`. -/
def error_value : Ret × lua_State → Option TValue
  | (.raised, L) => L.stack.getLast?
  | _ => none

/-! ## C strings -/

/-- The bytes of a C string: the text up to the first NUL. -/
def c_str (s : String) : List Char := s.data.takeWhile fun c => c ≠ Char.ofNat 0

/-- The test `strcmp(a, b) == 0`. -/
def strcmp_eq0 (a b : String) : Bool := c_str a = c_str b

/-! ## legacy.c -/

/-- The function `lua_avro_push_value`: a new userdata holding a copy of `value` and the
flag.  Its metatable is what `luaL_getmetatable(L, MT_AVRO_VALUE)` pushes, see
`Udata.metatable`. -/
def lua_avro_push_value (L : lua_State) (value : avro_value_t) (should_decref : Bool) :
    lua_State :=
  { L with
    heap := L.heap ++ [.AvroValue { value := value, should_decref := should_decref }],
    stack := L.stack ++ [.userdata L.heap.length] }

/-- The function `lua_avro_error`: raise the codec's error text. -/
def lua_avro_error (A : Avro) (L : lua_State) : Ret × lua_State :=
  lua_error (lua_pushstring L (some (A.avro_strerror L.avro)))

/-- The function `lua_avro_push_schema`: a new AvroSchema userdata holding
`avro_schema_incref(schema)` and no interface. -/
def lua_avro_push_schema (L : lua_State) (schema : Ptr) : lua_State :=
  let L1 := record L (.schema_incref schema)
  { L1 with
    heap := L1.heap ++ [.AvroSchema { schema := schema, iface := NULL }],
    stack := L1.stack ++ [.userdata L1.heap.length] }

/-- The function `lua_avro_get_raw_schema`. -/
def lua_avro_get_raw_schema (L : lua_State) (index : Int) : Option Ptr :=
  (luaL_checkudata_schema L index).map fun x => x.2.schema

/-- The function `l_new_raw_schema`. -/
def l_new_raw_schema (L : lua_State) : Ret × lua_State :=
  let schema := lua_touserdata L 1
  if schema = NULL then
    lua_error (lua_pushliteral L "Cannot create NULL schema wrapper")
  else
    let L1 := lua_avro_push_schema L schema
    let L2 := lua_pushlightuserdata L1 schema
    (.returned 2, L2)

/-- The second half of `l_schema_new_raw_value` (from `if (lua_gettop(L) >= 2)` on), run
with the interface `iface` that `l_schema->iface` holds at that point. -/
def new_raw_value_construct (A : Avro) (L : lua_State) (iface : Ptr) : Ret × lua_State :=
  if 2 ≤ lua_gettop L then
    match luaL_checkudata_value L 2 with
    | none => (.typerror 2 MT_AVRO_VALUE, L)
    | some (vid, l_value) =>
        let L1 :=
          if l_value.should_decref = true ∧ l_value.value.self ≠ NULL then
            record L (.value_decref l_value.value)
          else L
        let r := A.avro_generic_value_new L1.avro iface
        let L2 := record L1 (.generic_value_new iface r.1 r.2)
        let L3 := { L2 with heap := L2.heap.set vid (.AvroValue { l_value with value := r.2 }) }
        if r.1 ≠ 0 then lua_avro_error A L3
        else
          let L4 := { L3 with
            heap := L3.heap.set vid (.AvroValue { value := r.2, should_decref := true }) }
          let L5 := lua_pushvalue L4 2
          (.returned 1, L5)
  else
    let r := A.avro_generic_value_new L.avro iface
    let L1 := record L (.generic_value_new iface r.1 r.2)
    if r.1 ≠ 0 then lua_avro_error A L1
    else
      let L2 := lua_avro_push_value L1 r.2 true
      (.returned 1, L2)

/-- The function `l_schema_new_raw_value`. -/
def l_schema_new_raw_value (A : Avro) (L : lua_State) : Ret × lua_State :=
  match luaL_checkudata_schema L 1 with
  | none => (.typerror 1 MT_AVRO_SCHEMA, L)
  | some (sid, l_schema) =>
      if l_schema.iface = NULL then
        let iface := A.avro_generic_class_from_schema L.avro l_schema.schema
        let L1 := record L (.generic_class_from_schema l_schema.schema iface)
        let L2 := { L1 with heap := L1.heap.set sid (.AvroSchema { l_schema with iface := iface }) }
        if iface = NULL then
          lua_error (lua_pushstring L2 (some (A.avro_strerror L2.avro)))
        else new_raw_value_construct A L2 iface
      else new_raw_value_construct A L l_schema.iface

/-- The function `l_schema_type`. -/
def l_schema_type (A : Avro) (L : lua_State) : Ret × lua_State :=
  match lua_avro_get_raw_schema L 1 with
  | none => (.typerror 1 MT_AVRO_SCHEMA, L)
  | some schema => (.returned 1, lua_pushnumber L (A.avro_typeof L.avro schema))

/-- The function `l_schema_name`. -/
def l_schema_name (A : Avro) (L : lua_State) : Ret × lua_State :=
  match lua_avro_get_raw_schema L 1 with
  | none => (.typerror 1 MT_AVRO_SCHEMA, L)
  | some schema => (.returned 1, lua_pushstring L (A.avro_schema_type_name L.avro schema))

/-- The function `l_schema_gc`. -/
def l_schema_gc (L : lua_State) : Ret × lua_State :=
  match luaL_checkudata_schema L 1 with
  | none => (.typerror 1 MT_AVRO_SCHEMA, L)
  | some (sid, l_schema) =>
      let L1 := if l_schema.schema ≠ NULL then record L (.schema_decref l_schema.schema) else L
      let s1 : LuaAvroSchema :=
        if l_schema.schema ≠ NULL then { l_schema with schema := NULL } else l_schema
      let L2 := if s1.iface ≠ NULL then record L1 (.value_iface_decref s1.iface) else L1
      let s2 : LuaAvroSchema := if s1.iface ≠ NULL then { s1 with iface := NULL } else s1
      (.returned 0, { L2 with heap := L2.heap.set sid (.AvroSchema s2) })

/-- The end of the string branch of `l_schema_new`: wrap `schema`, drop the reference the
constructor or the parser handed out, and return the handle and the raw pointer. -/
def schema_new_wrap (L : lua_State) (schema : Ptr) : Ret × lua_State :=
  let L1 := lua_avro_push_schema L schema
  let L2 := record L1 (.schema_decref schema)
  let L3 := lua_pushlightuserdata L2 schema
  (.returned 2, L3)

/-- The function `l_schema_new`.  Two branches cannot be taken and are closed with
`Ret.raised`: `lua_tolstring` giving no string after `lua_isstring` held, and the userdata
whose metatable is the AvroSchema metatable not being a `LuaAvroSchema`. -/
def l_schema_new (A : Avro) (L : lua_State) : Ret × lua_State :=
  if lua_isstring L 1 then
    match lua_tolstring L 1 with
    | (none, L0) => (.raised, L0)
    | (some (json_str, json_len), L0) =>
        if strcmp_eq0 json_str "boolean" then
          let schema := A.avro_schema_boolean L0.avro
          schema_new_wrap (record L0 (.schema_primitive .boolean schema)) schema
        else if strcmp_eq0 json_str "bytes" then
          let schema := A.avro_schema_bytes L0.avro
          schema_new_wrap (record L0 (.schema_primitive .bytes schema)) schema
        else if strcmp_eq0 json_str "double" then
          let schema := A.avro_schema_double L0.avro
          schema_new_wrap (record L0 (.schema_primitive .double schema)) schema
        else if strcmp_eq0 json_str "float" then
          let schema := A.avro_schema_float L0.avro
          schema_new_wrap (record L0 (.schema_primitive .float schema)) schema
        else if strcmp_eq0 json_str "int" then
          let schema := A.avro_schema_int L0.avro
          schema_new_wrap (record L0 (.schema_primitive .int schema)) schema
        else if strcmp_eq0 json_str "long" then
          let schema := A.avro_schema_long L0.avro
          schema_new_wrap (record L0 (.schema_primitive .long schema)) schema
        else if strcmp_eq0 json_str "null" then
          let schema := A.avro_schema_null L0.avro
          schema_new_wrap (record L0 (.schema_primitive .null schema)) schema
        else if strcmp_eq0 json_str "string" then
          let schema := A.avro_schema_string L0.avro
          schema_new_wrap (record L0 (.schema_primitive .string schema)) schema
        else
          let r := A.avro_schema_from_json L0.avro json_str json_len
          let L1 := record L0 (.schema_from_json json_str json_len r.1 r.2)
          if r.1 ≠ 0 then lua_avro_error A L1
          else schema_new_wrap L1 r.2
  else if lua_isuserdata L 1 then
    match lua_getmetatable L 1 with
    | (true, L1) =>
        let L2 := lua_getfield_registry L1 MT_AVRO_SCHEMA
        if lua_rawequal L2 (-1) (-2) then
          let L3 := lua_pop L2 2
          match LuaAvroSchema_at L3 (lua_touserdata L3 1) with
          | some l_schema => (.returned 2, lua_pushlightuserdata L3 l_schema.schema)
          | none => (.raised, L3)
        else lua_error (lua_pushliteral L2 "Invalid input to Schema function")
    | (false, L1) => lua_error (lua_pushliteral L1 "Invalid input to Schema function")
  else lua_error (lua_pushliteral L "Invalid input to Schema function")

/-! ## Quantities the statements below speak about -/

/-- The interface `l_schema->iface` holds once the first half of `l_schema_new_raw_value`
is through: the cached one, or else what the codec derives now. -/
def iface_after_derive (A : Avro) (log : List Call) (s : LuaAvroSchema) : Ptr :=
  if s.iface = NULL then A.avro_generic_class_from_schema log s.schema else s.iface

/-- The codec calls of the first half of `l_schema_new_raw_value`: one derivation if no
interface is cached, none otherwise. -/
def derive_calls (A : Avro) (log : List Call) (s : LuaAvroSchema) : List Call :=
  if s.iface = NULL then
    [.generic_class_from_schema s.schema (A.avro_generic_class_from_schema log s.schema)]
  else []

/-- The primitive type a string names, read as the C code reads it: by its C string. -/
def primitive_of (json_str : String) : Option Primitive :=
  if strcmp_eq0 json_str "boolean" then some .boolean
  else if strcmp_eq0 json_str "bytes" then some .bytes
  else if strcmp_eq0 json_str "double" then some .double
  else if strcmp_eq0 json_str "float" then some .float
  else if strcmp_eq0 json_str "int" then some .int
  else if strcmp_eq0 json_str "long" then some .long
  else if strcmp_eq0 json_str "null" then some .null
  else if strcmp_eq0 json_str "string" then some .string
  else none

/-- The constructor of the codec that matches a primitive type.  This table is written
from the names alone, apart from the code: `l_schema_new` is compared with it. -/
def matching_constructor (A : Avro) : Primitive → List Call → Ptr
  | .boolean => A.avro_schema_boolean
  | .bytes => A.avro_schema_bytes
  | .double => A.avro_schema_double
  | .float => A.avro_schema_float
  | .int => A.avro_schema_int
  | .long => A.avro_schema_long
  | .null => A.avro_schema_null
  | .string => A.avro_schema_string

/-- The name of a primitive type, as `Schema` takes it. -/
def Primitive.name : Primitive → String
  | .boolean => "boolean"
  | .bytes => "bytes"
  | .double => "double"
  | .float => "float"
  | .int => "int"
  | .long => "long"
  | .null => "null"
  | .string => "string"

/-- The interfaces that the `avro_generic_value_new` calls of a history were made with. -/
def construction_ifaces (log : List Call) : List Ptr :=
  log.filterMap fun c => match c with
    | .generic_value_new iface _ _ => some iface
    | _ => none

/-- The operations the module registers: the two module functions, the three schema
methods and the `__gc` finalizer. -/
inductive Op
  | Schema | new_raw_schema | name | new_raw_value | type | gc
deriving DecidableEq, Repr

/-- Run one operation of the module on the arguments `args`. -/
def Op.run (A : Avro) (op : Op) (args : List TValue) (L : lua_State) : Ret × lua_State :=
  match op with
  | .Schema => l_schema_new A { L with stack := args }
  | .new_raw_schema => l_new_raw_schema { L with stack := args }
  | .name => l_schema_name A { L with stack := args }
  | .new_raw_value => l_schema_new_raw_value A { L with stack := args }
  | .type => l_schema_type A { L with stack := args }
  | .gc => l_schema_gc { L with stack := args }

/-- Run a list of operations of the module, each on its own arguments, one after the
other.  Calls that raise an error keep their effects, as in the host. -/
def run_ops (A : Avro) : List (Op × List TValue) → lua_State → lua_State
  | [], L => L
  | (op, args) :: ops, L => run_ops A ops (op.run A args L).2

/-- Run `new_raw_value` on the schema handle `h` once for each entry of `calls`, an entry
being the further arguments of that call (none for a fresh value, a value handle for
reuse).  Calls that raise an error keep their effects, as in the host. -/
def new_raw_value_seq (A : Avro) (h : Nat) : List (List TValue) → lua_State → lua_State
  | [], L => L
  | extra :: calls, L =>
      new_raw_value_seq A h calls
        (l_schema_new_raw_value A { L with stack := .userdata h :: extra }).2

/-- A codec with fixed answers, to run the functions on concrete inputs: the primitive
constructors return the objects 0 to 7, the parser returns `parse_rc` and a new object, the
interface derivation returns `cls`, and value construction returns `value_rc` with a new
value on success and a cleared destination on failure. -/
def sample_codec (parse_rc : Int) (cls : Ptr) (value_rc : Int) : Avro where
  avro_schema_boolean := fun _ => .obj 6
  avro_schema_bytes := fun _ => .obj 1
  avro_schema_double := fun _ => .obj 5
  avro_schema_float := fun _ => .obj 4
  avro_schema_int := fun _ => .obj 2
  avro_schema_long := fun _ => .obj 3
  avro_schema_null := fun _ => .obj 7
  avro_schema_string := fun _ => .obj 0
  avro_schema_from_json := fun log _ _ => (parse_rc, .obj (100 + log.length))
  avro_generic_class_from_schema := fun _ _ => cls
  avro_generic_value_new := fun log iface =>
    if value_rc = 0 then (0, ⟨iface, .obj (300 + log.length)⟩) else (value_rc, ⟨NULL, NULL⟩)
  avro_typeof := fun _ p => match p with
    | .obj a => a
    | _ => -1
  avro_schema_type_name := fun _ _ => some "name"
  avro_strerror := fun _ => "codec error"

/-- The state after `h = Schema("int")` and `v = h:new_raw_value()` on a host without
userdata: the schema handle is userdata 0 and, when the codec can construct, the value
handle is userdata 1. -/
def handle_and_value (A : Avro) : lua_State :=
  run_ops A [(.Schema, [.string "int"]), (.new_raw_value, [.userdata 0])] ⟨[], [], []⟩

/-! ## Stack and history lemmas -/

@[simp] theorem registry_schema : registry MT_AVRO_SCHEMA = some (.registered MT_AVRO_SCHEMA) := by
  decide

@[simp] theorem registry_value : registry MT_AVRO_VALUE = none := by
  decide

/-- The userdata `lua_avro_push_value` makes has no metatable: `luaL_getmetatable(L,
MT_AVRO_VALUE)` pushes `nil`, and `lua_setmetatable` attaches that. -/
theorem value_block_has_no_metatable (L : lua_State) (value : avro_value_t) (flag : Bool) :
    (lua_avro_push_value L value flag).heap[L.heap.length]?.bind Udata.metatable = none := by
  simp [lua_avro_push_value, Udata.metatable]

/-- The check against the AvroSchema metatable accepts exactly the schema blocks. -/
theorem checkudata_schema_unfold (L : lua_State) (idx : Int) :
    luaL_checkudata_schema L idx =
      match index2adr L idx with
      | some (.userdata id) =>
          match L.heap[id]? with
          | some (.AvroSchema s) => some (id, s)
          | _ => none
      | _ => none := by
  unfold luaL_checkudata_schema luaL_checkudata
  cases hx : index2adr L idx with
  | none => simp
  | some x =>
      cases x with
      | userdata id =>
          cases hu : L.heap[id]? with
          | none => simp [hu]
          | some u =>
              cases u with
              | AvroSchema t => simp [Udata.metatable, hu]
              | AvroValue v => simp [Udata.metatable, hu]
              | foreign mt => cases mt <;> simp [Udata.metatable, hu]
      | _ => simp

/-- The check against the name `avro:AvroValue` accepts nothing: the registry holds no
metatable under that name. -/
theorem luaL_checkudata_value_none (L : lua_State) (idx : Int) :
    luaL_checkudata_value L idx = none := by
  unfold luaL_checkudata_value luaL_checkudata
  cases hx : index2adr L idx with
  | none => simp
  | some x =>
      cases x with
      | userdata id =>
          cases hu : L.heap[id]?.bind Udata.metatable with
          | none => simp [hu]
          | some t => simp [hu]
      | _ => simp

@[simp] theorem index2adr_one (L : lua_State) : index2adr L 1 = L.stack[0]? := by
  simp [index2adr]

@[simp] theorem index2adr_two (L : lua_State) : index2adr L 2 = L.stack[1]? := by
  simp [index2adr]

theorem schema_refcount_append (l1 l2 : List Call) (p : Ptr) :
    schema_refcount (l1 ++ l2) p = schema_refcount l1 p + schema_refcount l2 p := by
  simp [schema_refcount, List.map_append, List.sum_append]

theorem derivations_append (l1 l2 : List Call) :
    derivations (l1 ++ l2) = derivations l1 + derivations l2 := by
  simp [derivations, List.countP_append]

theorem parser_calls_append (l1 l2 : List Call) :
    parser_calls (l1 ++ l2) = parser_calls l1 + parser_calls l2 := by
  simp [parser_calls, List.countP_append]

theorem value_releases_append (l1 l2 : List Call) (v : avro_value_t) :
    value_releases (l1 ++ l2) v = value_releases l1 v + value_releases l2 v := by
  simp [value_releases, List.count_append]

/-! ## `new_raw_schema` -/

/-- C1, as the claim states it, fails: wrapping the raw schema `obj 1` raises its reference
count from 0 to 1, because `lua_avro_push_schema` calls `avro_schema_incref`. -/
theorem new_raw_schema_count_changes :
    schema_refcount (l_new_raw_schema ⟨[.lightuserdata (.obj 1)], [], []⟩).2.avro (.obj 1)
      ≠ schema_refcount [] (.obj 1) := by
  decide

/-- C1, amended: for a non-null raw schema pointer `t`, `new_raw_schema(t)` makes one new
AvroSchema userdata holding `t` with no interface, calls `avro_schema_incref(t)` once and
nothing else, so that the reference count of `t` is one more than before, and returns the
handle and the pointer `t`. -/
theorem new_raw_schema_takes_one_reference (L : lua_State) (t : Ptr) (rest : List TValue)
    (ht : t ≠ NULL) (hs : L.stack = .lightuserdata t :: rest) :
    l_new_raw_schema L =
        (.returned 2,
          { stack := L.stack ++ [.userdata L.heap.length, .lightuserdata t],
            heap := L.heap ++ [.AvroSchema { schema := t, iface := NULL }],
            avro := L.avro ++ [.schema_incref t] }) ∧
      results (l_new_raw_schema L) = some [.userdata L.heap.length, .lightuserdata t] ∧
      schema_refcount (l_new_raw_schema L).2.avro t = schema_refcount L.avro t + 1 := by
  have h1 : l_new_raw_schema L =
        (.returned 2,
          { stack := L.stack ++ [.userdata L.heap.length, .lightuserdata t],
            heap := L.heap ++ [.AvroSchema { schema := t, iface := NULL }],
            avro := L.avro ++ [.schema_incref t] }) := by
    simp [l_new_raw_schema, lua_touserdata, hs, ht, lua_avro_push_schema, record,
      lua_pushlightuserdata, lua_push]
  refine ⟨h1, ?_, ?_⟩
  · rw [h1]
    simp [results, hs]
  · rw [h1]
    simp [schema_refcount_append, schema_refcount, Call.schema_delta]

/-- Witness for C1: the amended statement at the raw pointer `obj 1`. -/
theorem new_raw_schema_takes_one_reference_witness :
    l_new_raw_schema ⟨[.lightuserdata (.obj 1)], [], []⟩ =
        (.returned 2,
          { stack := [.lightuserdata (.obj 1), .userdata 0, .lightuserdata (.obj 1)],
            heap := [.AvroSchema { schema := .obj 1, iface := NULL }],
            avro := [.schema_incref (.obj 1)] }) ∧
      results (l_new_raw_schema ⟨[.lightuserdata (.obj 1)], [], []⟩)
        = some [.userdata 0, .lightuserdata (.obj 1)] ∧
      schema_refcount (l_new_raw_schema ⟨[.lightuserdata (.obj 1)], [], []⟩).2.avro (.obj 1)
        = schema_refcount [] (.obj 1) + 1 :=
  new_raw_schema_takes_one_reference ⟨[.lightuserdata (.obj 1)], [], []⟩ (.obj 1) []
    (by decide) rfl

/-! ## The finalizer -/

/-- C8: on a schema handle, `l_schema_gc` calls `avro_schema_decref` once if a schema is
held and `avro_value_iface_decref` once if (and only if) an interface is held, clears both
fields, and a second run on the state it leaves makes no call and changes nothing. -/
theorem schema_gc_releases_once_then_nothing (L : lua_State) (h : Nat) (rest : List TValue)
    (s : LuaAvroSchema) (hs : L.stack = .userdata h :: rest)
    (hh : L.heap[h]? = some (.AvroSchema s)) :
    l_schema_gc L =
        (.returned 0,
          { stack := L.stack,
            heap := L.heap.set h (.AvroSchema { schema := NULL, iface := NULL }),
            avro := L.avro
              ++ (if s.schema ≠ NULL then [.schema_decref s.schema] else [])
              ++ (if s.iface ≠ NULL then [.value_iface_decref s.iface] else []) }) ∧
      l_schema_gc (l_schema_gc L).2 = (.returned 0, (l_schema_gc L).2) := by
  have hlt : h < L.heap.length := by
    rcases Nat.lt_or_ge h L.heap.length with hlt | hge
    · exact hlt
    · rw [List.getElem?_eq_none hge] at hh
      cases hh
  have h1 : l_schema_gc L =
        (.returned 0,
          { stack := L.stack,
            heap := L.heap.set h (.AvroSchema { schema := NULL, iface := NULL }),
            avro := L.avro
              ++ (if s.schema ≠ NULL then [.schema_decref s.schema] else [])
              ++ (if s.iface ≠ NULL then [.value_iface_decref s.iface] else []) }) := by
    obtain ⟨sch, ifc⟩ := s
    by_cases h1 : sch = NULL <;> by_cases h2 : ifc = NULL <;>
      simp [l_schema_gc, checkudata_schema_unfold, hs, hh, h1, h2, record]
  refine ⟨h1, ?_⟩
  rw [h1]
  simp [l_schema_gc, checkudata_schema_unfold, hs, hlt]

/-- Witness for C8: a handle holding the schema `obj 1` and no interface. -/
theorem schema_gc_releases_once_then_nothing_witness :
    l_schema_gc ⟨[.userdata 0], [.AvroSchema ⟨.obj 1, NULL⟩], []⟩ =
        (.returned 0,
          { stack := [.userdata 0],
            heap := [.AvroSchema { schema := NULL, iface := NULL }],
            avro := [.schema_decref (.obj 1)] }) ∧
      l_schema_gc (l_schema_gc ⟨[.userdata 0], [.AvroSchema ⟨.obj 1, NULL⟩], []⟩).2
        = (.returned 0, (l_schema_gc ⟨[.userdata 0], [.AvroSchema ⟨.obj 1, NULL⟩], []⟩).2) :=
  schema_gc_releases_once_then_nothing ⟨[.userdata 0], [.AvroSchema ⟨.obj 1, NULL⟩], []⟩ 0 []
    ⟨.obj 1, NULL⟩ rfl rfl

/-! ## `Schema` -/

theorem primitive_of_name (k : Primitive) : primitive_of k.name = some k := by
  cases k <;> decide

theorem c_str_name (k : Primitive) : c_str k.name = k.name.data := by
  cases k <;> decide

/-- The `strcmp` chain finds no primitive exactly when the C string of the argument is
none of the eight names. -/
theorem primitive_of_eq_none_iff (s : String) :
    primitive_of s = none ↔ ∀ k : Primitive, c_str s ≠ k.name.data := by
  have hb := c_str_name .boolean
  have hy := c_str_name .bytes
  have hd := c_str_name .double
  have hf := c_str_name .float
  have hi := c_str_name .int
  have hl := c_str_name .long
  have hn := c_str_name .null
  have hs := c_str_name .string
  simp only [Primitive.name] at hb hy hd hf hi hl hn hs
  constructor
  · intro h k
    unfold primitive_of at h
    simp only [strcmp_eq0, hb, hy, hd, hf, hi, hl, hn, hs, decide_eq_true_eq] at h
    cases k <;> simp only [Primitive.name] <;> intro hc <;> simp [hc] at h
  · intro h
    have h1 := h .boolean
    have h2 := h .bytes
    have h3 := h .double
    have h4 := h .float
    have h5 := h .int
    have h6 := h .long
    have h7 := h .null
    have h8 := h .string
    simp only [Primitive.name] at h1 h2 h3 h4 h5 h6 h7 h8
    unfold primitive_of
    simp only [strcmp_eq0, hb, hy, hd, hf, hi, hl, hn, hs, decide_eq_true_eq]
    simp [h1, h2, h3, h4, h5, h6, h7, h8]

/-- The string branch of `l_schema_new` when the parser or a constructor has produced
`schema`. -/
theorem schema_new_wrap_eq (L : lua_State) (schema : Ptr) :
    schema_new_wrap L schema =
      (.returned 2,
        { stack := L.stack ++ [.userdata L.heap.length, .lightuserdata schema],
          heap := L.heap ++ [.AvroSchema { schema := schema, iface := NULL }],
          avro := L.avro ++ [.schema_incref schema, .schema_decref schema] }) := by
  simp [schema_new_wrap, lua_avro_push_schema, record, lua_pushlightuserdata, lua_push]

/-- The pass-through branch of `l_schema_new`, on explicit state components. -/
theorem schema_new_handle (A : Avro) (heap : List Udata) (log : List Call) (h : Nat)
    (s : LuaAvroSchema) (hh : heap[h]? = some (.AvroSchema s)) :
    l_schema_new A ⟨[.userdata h], heap, log⟩ =
      (.returned 2, ⟨[.userdata h, .lightuserdata s.schema], heap, log⟩) := by
  simp [l_schema_new, lua_isstring, lua_isuserdata, lua_getmetatable, hh, Udata.metatable,
    lua_getfield_registry, lua_push, lua_rawequal, index2adr, lua_pop, LuaAvroSchema_at,
    lua_touserdata, lua_pushlightuserdata]

/-- The string branch of `l_schema_new` on a string argument. -/
theorem schema_new_string (A : Avro) (s : String) (rest : List TValue) (heap : List Udata)
    (log : List Call) :
    l_schema_new A ⟨.string s :: rest, heap, log⟩ =
      match primitive_of s with
      | some k =>
          schema_new_wrap ⟨.string s :: rest, heap,
            log ++ [.schema_primitive k (matching_constructor A k log)]⟩
            (matching_constructor A k log)
      | none =>
          if (A.avro_schema_from_json log s s.length).1 ≠ 0 then
            lua_avro_error A ⟨.string s :: rest, heap,
              log ++ [.schema_from_json s s.length (A.avro_schema_from_json log s s.length).1
                (A.avro_schema_from_json log s s.length).2]⟩
          else
            schema_new_wrap ⟨.string s :: rest, heap,
              log ++ [.schema_from_json s s.length (A.avro_schema_from_json log s s.length).1
                (A.avro_schema_from_json log s s.length).2]⟩
              (A.avro_schema_from_json log s s.length).2 := by
  simp only [l_schema_new, lua_isstring, index2adr_one, lua_tolstring, record]
  simp only [List.getElem?_cons_zero, if_true, Nat.sub_self]
  unfold primitive_of
  by_cases h1 : strcmp_eq0 s "boolean" = true
  · simp only [h1, if_true, if_false, Bool.false_eq_true, matching_constructor]
  · simp only [Bool.not_eq_true] at h1
    by_cases h2 : strcmp_eq0 s "bytes" = true
    · simp only [h1, h2, if_true, if_false, Bool.false_eq_true, matching_constructor]
    · simp only [Bool.not_eq_true] at h2
      by_cases h3 : strcmp_eq0 s "double" = true
      · simp only [h1, h2, h3, if_true, if_false, Bool.false_eq_true, matching_constructor]
      · simp only [Bool.not_eq_true] at h3
        by_cases h4 : strcmp_eq0 s "float" = true
        · simp only [h1, h2, h3, h4, if_true, if_false, Bool.false_eq_true, matching_constructor]
        · simp only [Bool.not_eq_true] at h4
          by_cases h5 : strcmp_eq0 s "int" = true
          · simp only [h1, h2, h3, h4, h5, if_true, if_false, Bool.false_eq_true, matching_constructor]
          · simp only [Bool.not_eq_true] at h5
            by_cases h6 : strcmp_eq0 s "long" = true
            · simp only [h1, h2, h3, h4, h5, h6, if_true, if_false, Bool.false_eq_true, matching_constructor]
            · simp only [Bool.not_eq_true] at h6
              by_cases h7 : strcmp_eq0 s "null" = true
              · simp only [h1, h2, h3, h4, h5, h6, h7, if_true, if_false, Bool.false_eq_true, matching_constructor]
              · simp only [Bool.not_eq_true] at h7
                by_cases h8 : strcmp_eq0 s "string" = true
                · simp only [h1, h2, h3, h4, h5, h6, h7, h8, if_true, if_false, Bool.false_eq_true, matching_constructor]
                · simp only [Bool.not_eq_true] at h8
                  simp only [h1, h2, h3, h4, h5, h6, h7, h8, if_false, Bool.false_eq_true]

/-- A number argument is handled as the string Lua converts it to. -/
theorem schema_new_number (A : Avro) (n : Int) (rest : List TValue) (heap : List Udata)
    (log : List Call) :
    l_schema_new A ⟨.number n :: rest, heap, log⟩ =
      l_schema_new A ⟨.string (lua_number2str n) :: rest, heap, log⟩ := by
  simp only [l_schema_new, lua_isstring, index2adr_one, lua_tolstring, record]
  simp only [List.getElem?_cons_zero, if_true, Nat.sub_self, List.set_cons_zero]

/-- A successful `Schema(x)` returns a schema handle and the pointer it holds. -/
theorem schema_new_results_single (A : Avro) (x : TValue) (heap : List Udata)
    (log : List Call) (r : List TValue)
    (hr : results (l_schema_new A ⟨[x], heap, log⟩) = some r) :
    ∃ id s, r = [.userdata id, .lightuserdata s.schema] ∧
      (l_schema_new A ⟨[x], heap, log⟩).2.heap[id]? = some (.AvroSchema s) := by
  have hstr : ∀ t : String, results (l_schema_new A ⟨[.string t], heap, log⟩) = some r →
      ∃ id s, r = [.userdata id, .lightuserdata s.schema] ∧
        (l_schema_new A ⟨[.string t], heap, log⟩).2.heap[id]? = some (.AvroSchema s) := by
    intro t ht
    rw [schema_new_string] at ht ⊢
    cases hp : primitive_of t with
    | some k =>
        simp only [hp, schema_new_wrap_eq] at ht ⊢
        simp [results] at ht
        exact ⟨heap.length, ⟨matching_constructor A k log, NULL⟩, ht.symm, by simp⟩
    | none =>
        simp only [hp] at ht ⊢
        by_cases hrc : (A.avro_schema_from_json log t t.length).1 = 0
        · simp only [hrc, ne_eq, not_true_eq_false, if_false, schema_new_wrap_eq] at ht ⊢
          simp [results] at ht
          exact ⟨heap.length, ⟨(A.avro_schema_from_json log t t.length).2, NULL⟩, ht.symm,
            by simp⟩
        · simp [hrc, lua_avro_error, lua_error, results] at ht
  cases x with
  | string t => exact hstr t hr
  | number n =>
      rw [schema_new_number] at hr ⊢
      exact hstr _ hr
  | userdata id =>
      cases hu : heap[id]? with
      | none =>
          simp [l_schema_new, lua_isstring, lua_isuserdata, lua_getmetatable, hu, lua_error,
            results] at hr
      | some u =>
          cases u with
          | AvroSchema s =>
              rw [schema_new_handle A heap log id s hu] at hr ⊢
              simp [results] at hr
              exact ⟨id, s, hr.symm, hu⟩
          | AvroValue v =>
              simp [l_schema_new, lua_isstring, lua_isuserdata, lua_getmetatable, hu,
                Udata.metatable, lua_getfield_registry, lua_push, lua_rawequal, index2adr,
                lua_error, results, lua_pushliteral] at hr
          | foreign mt =>
              cases mt <;>
              simp [l_schema_new, lua_isstring, lua_isuserdata, lua_getmetatable, hu,
                Udata.metatable, lua_getfield_registry, lua_push, lua_rawequal, index2adr,
                lua_error, results, lua_pushliteral] at hr
  | nil => simp [l_schema_new, lua_isstring, lua_isuserdata, lua_error, results] at hr
  | boolean b => simp [l_schema_new, lua_isstring, lua_isuserdata, lua_error, results] at hr
  | lightuserdata p =>
      simp [l_schema_new, lua_isstring, lua_isuserdata, lua_getmetatable, lua_error,
        results] at hr
  | table t => simp [l_schema_new, lua_isstring, lua_isuserdata, lua_error, results] at hr
  | other n => simp [l_schema_new, lua_isstring, lua_isuserdata, lua_error, results] at hr

theorem getLast?_cons_append_one {α : Type} (a : α) (l : List α) (b : α) :
    (a :: (l ++ [b])).getLast? = some b := by
  rw [← List.cons_append, List.getLast?_concat]

theorem getLast?_cons_append_three {α : Type} (a : α) (l : List α) (c d b : α) :
    (a :: (l ++ [c, d, b])).getLast? = some b := by
  have h : a :: (l ++ [c, d, b]) = (a :: l ++ [c, d]) ++ [b] := by simp
  rw [h, List.getLast?_concat]

/-- C6: `Schema(h)` on a schema handle `h` returns `h` itself and the pointer of the
schema `h` holds, allocates no userdata, makes no codec call (so every reference count is
as before) and leaves every block, that of `h` included, as it was.  Hence for any `x`,
when `Schema(x)` returns a handle and a pointer, `Schema` of that handle returns the same
handle and the same pointer and changes nothing. -/
theorem schema_of_handle_passes_through (A : Avro) (L : lua_State) (h : Nat)
    (s : LuaAvroSchema) (hs : L.stack = [.userdata h])
    (hh : L.heap[h]? = some (.AvroSchema s)) :
    l_schema_new A L =
        (.returned 2,
          { stack := [.userdata h, .lightuserdata s.schema], heap := L.heap, avro := L.avro }) ∧
      results (l_schema_new A L) = some [.userdata h, .lightuserdata s.schema] ∧
      (∀ (x : TValue) (L0 : lua_State) (r : List TValue), L0.stack = [x] →
        results (l_schema_new A L0) = some r →
        ∃ hv tok, r = [hv, tok] ∧
          l_schema_new A { (l_schema_new A L0).2 with stack := [hv] } =
            (.returned 2, { (l_schema_new A L0).2 with stack := [hv, tok] }) ∧
          results (l_schema_new A { (l_schema_new A L0).2 with stack := [hv] }) = some r) := by
  obtain ⟨stack, heap, log⟩ := L
  simp only at hs hh
  subst hs
  refine ⟨schema_new_handle A heap log h s hh, ?_, ?_⟩
  · rw [schema_new_handle A heap log h s hh]
    simp [results]
  · intro x L0 r hx hr
    obtain ⟨stack0, heap0, log0⟩ := L0
    simp only at hx
    subst hx
    obtain ⟨id, t, hrt, hid⟩ := schema_new_results_single A x heap0 log0 r hr
    refine ⟨.userdata id, .lightuserdata t.schema, hrt, ?_⟩
    have h2 := schema_new_handle A (l_schema_new A ⟨[x], heap0, log0⟩).2.heap
      (l_schema_new A ⟨[x], heap0, log0⟩).2.avro id t hid
    refine ⟨h2, ?_⟩
    rw [show ({ (l_schema_new A ⟨[x], heap0, log0⟩).2 with stack := [TValue.userdata id] }
        : lua_State) = ⟨[.userdata id], (l_schema_new A ⟨[x], heap0, log0⟩).2.heap,
          (l_schema_new A ⟨[x], heap0, log0⟩).2.avro⟩ from rfl, h2, hrt]
    simp [results]

/-- Witness for C6: a handle holding the schema `obj 1`. -/
theorem schema_of_handle_passes_through_witness :
    l_schema_new (sample_codec 0 (.obj 200) 0)
        ⟨[.userdata 0], [.AvroSchema ⟨.obj 1, NULL⟩], []⟩ =
      (.returned 2,
        { stack := [.userdata 0, .lightuserdata (.obj 1)],
          heap := [.AvroSchema ⟨.obj 1, NULL⟩], avro := [] }) :=
  (schema_of_handle_passes_through (sample_codec 0 (.obj 200) 0)
    ⟨[.userdata 0], [.AvroSchema ⟨.obj 1, NULL⟩], []⟩ 0 ⟨.obj 1, NULL⟩ rfl rfl).1

/-- C3, as the claim states it, fails at the number 42: `lua_isstring` holds for a number,
so `Schema(42)` takes the string branch, calls the JSON parser on the text "42", and when
the parser rejects it the error raised is the codec's, not "Invalid input to Schema
function". -/
theorem schema_of_number_is_parsed :
    (l_schema_new (sample_codec 22 NULL 0) ⟨[.number 42], [], []⟩).2.avro
        = [.schema_from_json "42" 2 22 (.obj 100)] ∧
      parser_calls (l_schema_new (sample_codec 22 NULL 0) ⟨[.number 42], [], []⟩).2.avro = 1 ∧
      error_value (l_schema_new (sample_codec 22 NULL 0) ⟨[.number 42], [], []⟩)
        = some (.string "codec error") ∧
      error_value (l_schema_new (sample_codec 22 NULL 0) ⟨[.number 42], [], []⟩)
        ≠ some (.string "Invalid input to Schema function") := by
  decide

/-- C3, amended: for every first argument that is neither a string, nor a number, nor a
schema handle, `Schema` raises "Invalid input to Schema function", makes no codec call (the
parser is not invoked) and allocates no userdata; a number is handled as the string Lua
converts it to. -/
theorem schema_rejects_other_inputs (A : Avro) (L : lua_State) (x : TValue)
    (rest : List TValue) (hs : L.stack = x :: rest)
    (hstr : ∀ t, x ≠ .string t) (hnum : ∀ n, x ≠ .number n)
    (hsch : ∀ id s, x = .userdata id → L.heap[id]? ≠ some (.AvroSchema s)) :
    (l_schema_new A L).1 = .raised ∧
      error_value (l_schema_new A L) = some (.string "Invalid input to Schema function") ∧
      (l_schema_new A L).2.heap = L.heap ∧
      (l_schema_new A L).2.avro = L.avro ∧
      parser_calls (l_schema_new A L).2.avro = parser_calls L.avro ∧
      (∀ (n : Int) (rest1 : List TValue) (heap : List Udata) (log : List Call),
        l_schema_new A ⟨.number n :: rest1, heap, log⟩ =
          l_schema_new A ⟨.string (lua_number2str n) :: rest1, heap, log⟩) := by
  obtain ⟨stack, heap, log⟩ := L
  simp only at hs hsch
  subst hs
  have key : (l_schema_new A ⟨x :: rest, heap, log⟩).1 = .raised ∧
      error_value (l_schema_new A ⟨x :: rest, heap, log⟩)
        = some (.string "Invalid input to Schema function") ∧
      (l_schema_new A ⟨x :: rest, heap, log⟩).2.heap = heap ∧
      (l_schema_new A ⟨x :: rest, heap, log⟩).2.avro = log := by
    cases x with
    | string t => exact absurd rfl (hstr t)
    | number n => exact absurd rfl (hnum n)
    | userdata id =>
        cases hu : heap[id]? with
        | none =>
            simp [l_schema_new, lua_isstring, lua_isuserdata, lua_getmetatable, hu, lua_error,
              error_value, lua_pushliteral, lua_push, getLast?_cons_append_one]
        | some u =>
            cases u with
            | AvroSchema s => exact absurd hu (hsch id s rfl)
            | AvroValue v =>
                simp [l_schema_new, lua_isstring, lua_isuserdata, lua_getmetatable, hu,
                  Udata.metatable, lua_getfield_registry, lua_push, lua_rawequal, index2adr,
                  lua_error, error_value, lua_pushliteral, getLast?_cons_append_one]
            | foreign mt =>
                cases mt <;>
                simp [l_schema_new, lua_isstring, lua_isuserdata, lua_getmetatable, hu,
                  Udata.metatable, lua_getfield_registry, lua_push, lua_rawequal, index2adr,
                  lua_error, error_value, lua_pushliteral, getLast?_cons_append_three,
                  getLast?_cons_append_one]
    | nil =>
        simp [l_schema_new, lua_isstring, lua_isuserdata, lua_error, error_value,
          lua_pushliteral, lua_push, getLast?_cons_append_one]
    | boolean b =>
        simp [l_schema_new, lua_isstring, lua_isuserdata, lua_error, error_value,
          lua_pushliteral, lua_push, getLast?_cons_append_one]
    | lightuserdata p =>
        simp [l_schema_new, lua_isstring, lua_isuserdata, lua_getmetatable, lua_error,
          error_value, lua_pushliteral, lua_push, getLast?_cons_append_one]
    | table t =>
        simp [l_schema_new, lua_isstring, lua_isuserdata, lua_error, error_value,
          lua_pushliteral, lua_push, getLast?_cons_append_one]
    | other n =>
        simp [l_schema_new, lua_isstring, lua_isuserdata, lua_error, error_value,
          lua_pushliteral, lua_push, getLast?_cons_append_one]
  obtain ⟨k1, k2, k3, k4⟩ := key
  refine ⟨k1, k2, k3, k4, ?_, fun n rest1 heap1 log1 => schema_new_number A n rest1 heap1 log1⟩
  rw [k4]

/-- Witness for C3: `Schema(true)` is refused. -/
theorem schema_rejects_other_inputs_witness :
    (l_schema_new (sample_codec 0 (.obj 200) 0) ⟨[.boolean true], [], []⟩).1 = .raised ∧
      error_value (l_schema_new (sample_codec 0 (.obj 200) 0) ⟨[.boolean true], [], []⟩)
        = some (.string "Invalid input to Schema function") ∧
      (l_schema_new (sample_codec 0 (.obj 200) 0) ⟨[.boolean true], [], []⟩).2.avro = [] :=
  have h := schema_rejects_other_inputs (sample_codec 0 (.obj 200) 0)
    ⟨[.boolean true], [], []⟩ (.boolean true) [] rfl (by intro t; simp)
    (by intro n; simp) (by intro id s hx; cases hx)
  ⟨h.1, h.2.1, h.2.2.2.1⟩

/-- C9: for each of the eight primitive names, `Schema(name)` calls the matching primitive
constructor of the codec (`avro_schema_boolean` for "boolean", and so on, as the table
`matching_constructor` lists them), wraps the schema it returns, and does not call the JSON
parser; `type()` on the resulting handle returns `avro_typeof` of that schema, which is the
matching kind `kind k` whenever the codec reports that kind for the schema of its
constructor. -/
theorem schema_of_primitive_name (A : Avro) (kind : Primitive → Int) (k : Primitive)
    (L : lua_State) (rest : List TValue) (hs : L.stack = .string k.name :: rest)
    (hkind :
      A.avro_typeof (l_schema_new A L).2.avro (matching_constructor A k L.avro) = kind k) :
    l_schema_new A L =
        (.returned 2,
          { stack := L.stack ++ [.userdata L.heap.length, .lightuserdata (matching_constructor A k L.avro)],
            heap := L.heap ++ [.AvroSchema { schema := matching_constructor A k L.avro, iface := NULL }],
            avro := L.avro ++ [.schema_primitive k (matching_constructor A k L.avro),
              .schema_incref (matching_constructor A k L.avro), .schema_decref (matching_constructor A k L.avro)] }) ∧
      results (l_schema_new A L)
        = some [.userdata L.heap.length, .lightuserdata (matching_constructor A k L.avro)] ∧
      parser_calls (l_schema_new A L).2.avro = parser_calls L.avro ∧
      results (l_schema_type A { (l_schema_new A L).2 with stack := [.userdata L.heap.length] })
        = some [.number (kind k)] := by
  obtain ⟨stack, heap, log⟩ := L
  simp only at hs
  subst hs
  have h1 : l_schema_new A ⟨.string k.name :: rest, heap, log⟩ =
      (.returned 2,
        { stack := (.string k.name :: rest)
            ++ [.userdata heap.length, .lightuserdata (matching_constructor A k log)],
          heap := heap ++ [.AvroSchema { schema := matching_constructor A k log, iface := NULL }],
          avro := log ++ [.schema_primitive k (matching_constructor A k log),
            .schema_incref (matching_constructor A k log), .schema_decref (matching_constructor A k log)] }) := by
    rw [schema_new_string, primitive_of_name]
    simp [schema_new_wrap_eq]
  rw [h1] at hkind
  simp only at hkind
  refine ⟨h1, ?_, ?_, ?_⟩
  · rw [h1]
    simp [results]
  · rw [h1]
    simp [parser_calls_append, parser_calls]
  · rw [h1]
    simp [l_schema_type, lua_avro_get_raw_schema, checkudata_schema_unfold, results,
      lua_pushnumber, lua_push, hkind]

/-- Witness for C9: `Schema("long")` with the sample codec, whose `long` schema is the
object 3 and has kind 3. -/
theorem schema_of_primitive_name_witness :
    results (l_schema_type (sample_codec 0 (.obj 200) 0)
        { (l_schema_new (sample_codec 0 (.obj 200) 0) ⟨[.string "long"], [], []⟩).2 with
          stack := [.userdata 0] })
      = some [.number 3] :=
  (schema_of_primitive_name (sample_codec 0 (.obj 200) 0)
    (fun k => (sample_codec 0 (.obj 200) 0).avro_typeof []
      (matching_constructor (sample_codec 0 (.obj 200) 0) k []))
    .long ⟨[.string "long"], [], []⟩ [] rfl (by decide)).2.2.2

/-- C4: for a string `s` whose C string is none of the eight primitive names and that the
parser accepts, giving a schema `p` that carries one reference, `Schema(s)` calls the
parser once, then `avro_schema_incref(p)` once for the new handle (interface absent) and
`avro_schema_decref(p)` once for the parser's reference, so the count of `p` is exactly one
afterwards; the pointer returned is the schema the new handle holds. -/
theorem schema_of_parsed_text (A : Avro) (L : lua_State) (s : String) (rest : List TValue)
    (p : Ptr) (hs : L.stack = .string s :: rest)
    (hname : ∀ k : Primitive, c_str s ≠ k.name.data)
    (hparse : A.avro_schema_from_json L.avro s s.length = (0, p))
    (hone : schema_refcount (L.avro ++ [.schema_from_json s s.length 0 p]) p = 1) :
    l_schema_new A L =
        (.returned 2,
          { stack := L.stack ++ [.userdata L.heap.length, .lightuserdata p],
            heap := L.heap ++ [.AvroSchema { schema := p, iface := NULL }],
            avro := L.avro ++ [.schema_from_json s s.length 0 p, .schema_incref p,
              .schema_decref p] }) ∧
      results (l_schema_new A L) = some [.userdata L.heap.length, .lightuserdata p] ∧
      (l_schema_new A L).2.heap[L.heap.length]?
        = some (.AvroSchema { schema := p, iface := NULL }) ∧
      schema_refcount (l_schema_new A L).2.avro p = 1 := by
  obtain ⟨stack, heap, log⟩ := L
  simp only at hs hparse hone
  subst hs
  have h1 : l_schema_new A ⟨.string s :: rest, heap, log⟩ =
      (.returned 2,
        { stack := (.string s :: rest) ++ [.userdata heap.length, .lightuserdata p],
          heap := heap ++ [.AvroSchema { schema := p, iface := NULL }],
          avro := log ++ [.schema_from_json s s.length 0 p, .schema_incref p,
            .schema_decref p] }) := by
    rw [schema_new_string, (primitive_of_eq_none_iff s).2 hname]
    simp [hparse, schema_new_wrap_eq]
  refine ⟨h1, ?_, ?_, ?_⟩
  · rw [h1]
    simp [results]
  · rw [h1]
    simp
  · rw [h1]
    have h2 : log ++ [Call.schema_from_json s s.length 0 p, .schema_incref p, .schema_decref p]
        = (log ++ [Call.schema_from_json s s.length 0 p])
          ++ [.schema_incref p, .schema_decref p] := by simp
    simp only [h2]
    rw [schema_refcount_append, hone]
    simp [schema_refcount, Call.schema_delta]

/-- Witness for C4: the union schema text `["null","int"]`, which the sample codec parses
to the new object 100. -/
theorem schema_of_parsed_text_witness :
    l_schema_new (sample_codec 0 (.obj 200) 0) ⟨[.string "[\"null\",\"int\"]"], [], []⟩ =
        (.returned 2,
          { stack := [.string "[\"null\",\"int\"]", .userdata 0, .lightuserdata (.obj 100)],
            heap := [.AvroSchema { schema := .obj 100, iface := NULL }],
            avro := [.schema_from_json "[\"null\",\"int\"]" 14 0 (.obj 100),
              .schema_incref (.obj 100), .schema_decref (.obj 100)] }) ∧
      schema_refcount
        (l_schema_new (sample_codec 0 (.obj 200) 0)
          ⟨[.string "[\"null\",\"int\"]"], [], []⟩).2.avro (.obj 100) = 1 :=
  have h := schema_of_parsed_text (sample_codec 0 (.obj 200) 0)
    ⟨[.string "[\"null\",\"int\"]"], [], []⟩ "[\"null\",\"int\"]" [] (.obj 100) rfl
    (by intro k; cases k <;> decide) (by decide) (by decide)
  ⟨h.1, h.2.2.2⟩

/-! ## `new_raw_value` -/

theorem set_eq_of_getElem? {α : Type} (l : List α) (i : Nat) (a : α) (h : l[i]? = some a) :
    l.set i a = l := by
  induction l generalizing i with
  | nil => simp
  | cons b l ih =>
      cases i with
      | zero =>
          simp at h
          simp [h]
      | succ i =>
          simp at h
          simp [ih i h]

/-- The fresh branch of the second half of `l_schema_new_raw_value`. -/
theorem construct_fresh (A : Avro) (L : lua_State) (iface : Ptr)
    (hlen : L.stack.length < 2) :
    new_raw_value_construct A L iface =
      if (A.avro_generic_value_new L.avro iface).1 ≠ 0 then
        (.raised,
          { stack := L.stack ++ [.string (A.avro_strerror (L.avro ++
              [.generic_value_new iface (A.avro_generic_value_new L.avro iface).1
                (A.avro_generic_value_new L.avro iface).2]))],
            heap := L.heap,
            avro := L.avro ++
              [.generic_value_new iface (A.avro_generic_value_new L.avro iface).1
                (A.avro_generic_value_new L.avro iface).2] })
      else
        (.returned 1,
          { stack := L.stack ++ [.userdata L.heap.length],
            heap := L.heap ++ [.AvroValue
              { value := (A.avro_generic_value_new L.avro iface).2, should_decref := true }],
            avro := L.avro ++
              [.generic_value_new iface (A.avro_generic_value_new L.avro iface).1
                (A.avro_generic_value_new L.avro iface).2] }) := by
  unfold new_raw_value_construct
  rw [if_neg (by simpa [lua_gettop] using hlen)]
  by_cases hrc : (A.avro_generic_value_new L.avro iface).1 = 0
  · simp [hrc, record, lua_avro_push_value]
  · simp [hrc, record, lua_avro_error, lua_error, lua_pushstring, lua_push]

/-- With a second argument, the second half of `l_schema_new_raw_value` raises the
argument error of `luaL_checkudata`: whatever the argument is, it does not carry the
metatable the registry holds under `avro:AvroValue`, because the registry holds none. -/
theorem construct_refuses (A : Avro) (L : lua_State) (iface : Ptr)
    (hlen : 2 ≤ L.stack.length) :
    new_raw_value_construct A L iface = (.typerror 2 MT_AVRO_VALUE, L) := by
  unfold new_raw_value_construct
  rw [if_pos (by simpa [lua_gettop] using hlen)]
  simp only [luaL_checkudata_value_none]

theorem checkudata_schema_some (L : lua_State) (sid : Nat) (s : LuaAvroSchema)
    (h : luaL_checkudata_schema L 1 = some (sid, s)) :
    L.stack[0]? = some (.userdata sid) ∧ L.heap[sid]? = some (.AvroSchema s) := by
  rw [checkudata_schema_unfold, index2adr_one] at h
  split at h
  · rename_i id hid
    split at h
    · rename_i v hv
      simp only [Option.some.injEq, Prod.mk.injEq] at h
      obtain ⟨h1, h2⟩ := h
      subst h1 h2
      exact ⟨hid, hv⟩
    · cases h
  · cases h

/-- When an interface is cached or can be derived, `l_schema_new_raw_value` is its second
half run after the derivation. -/
theorem new_raw_value_eq (A : Avro) (L : lua_State) (h : Nat) (s : LuaAvroSchema)
    (hs : L.stack[0]? = some (.userdata h)) (hh : L.heap[h]? = some (.AvroSchema s))
    (hi : iface_after_derive A L.avro s ≠ NULL) :
    l_schema_new_raw_value A L =
      new_raw_value_construct A
        { stack := L.stack,
          heap := L.heap.set h
            (.AvroSchema { schema := s.schema, iface := iface_after_derive A L.avro s }),
          avro := L.avro ++ derive_calls A L.avro s }
        (iface_after_derive A L.avro s) := by
  have hc : luaL_checkudata_schema L 1 = some (h, s) := by
    simp [checkudata_schema_unfold, hs, hh]
  unfold l_schema_new_raw_value
  simp only [hc]
  by_cases hn : s.iface = NULL
  · simp only [iface_after_derive, hn, if_true] at hi
    simp [hn, hi, iface_after_derive, derive_calls, record]
  · have hset : L.heap.set h (.AvroSchema { schema := s.schema, iface := s.iface }) = L.heap :=
      set_eq_of_getElem? L.heap h _ hh
    simp [hn, iface_after_derive, derive_calls, hset]

/-- When no interface is cached and the derivation fails, `l_schema_new_raw_value` raises
the codec's error. -/
theorem new_raw_value_derive_fails (A : Avro) (L : lua_State) (h : Nat) (s : LuaAvroSchema)
    (hs : L.stack[0]? = some (.userdata h)) (hh : L.heap[h]? = some (.AvroSchema s))
    (hi : iface_after_derive A L.avro s = NULL) :
    l_schema_new_raw_value A L =
      (.raised,
        { stack := L.stack ++ [.string (A.avro_strerror (L.avro ++ derive_calls A L.avro s))],
          heap := L.heap,
          avro := L.avro ++ derive_calls A L.avro s }) := by
  have hc : luaL_checkudata_schema L 1 = some (h, s) := by
    simp [checkudata_schema_unfold, hs, hh]
  have hn : s.iface = NULL := by
    by_contra hn
    simp [iface_after_derive, hn] at hi
  have hd : A.avro_generic_class_from_schema L.avro s.schema = NULL := by
    simpa [iface_after_derive, hn] using hi
  have hset : L.heap.set h (.AvroSchema { schema := s.schema, iface := NULL }) = L.heap := by
    apply set_eq_of_getElem?
    rw [hh, ← hn]
  unfold l_schema_new_raw_value
  simp [hc, hn, hd, derive_calls, record, lua_error, lua_pushstring, lua_push, hset]

/-- With a second argument, `l_schema_new_raw_value` on a schema handle whose interface is
cached or can be derived does the derivation, if one is needed, and then raises the
argument error: nothing is released and nothing is constructed. -/
theorem new_raw_value_refuses_second_argument (A : Avro) (L : lua_State) (h : Nat)
    (s : LuaAvroSchema) (x : TValue) (rest : List TValue)
    (hs : L.stack = .userdata h :: x :: rest) (hh : L.heap[h]? = some (.AvroSchema s))
    (hi : iface_after_derive A L.avro s ≠ NULL) :
    l_schema_new_raw_value A L =
      (.typerror 2 MT_AVRO_VALUE,
        { stack := L.stack,
          heap := L.heap.set h
            (.AvroSchema { schema := s.schema, iface := iface_after_derive A L.avro s }),
          avro := L.avro ++ derive_calls A L.avro s }) := by
  rw [new_raw_value_eq A L h s (by simp [hs]) hh hi]
  exact construct_refuses A _ _ (by simp [hs])

/-- The second half of `l_schema_new_raw_value` changes no userdata block; it may add
one. -/
theorem construct_heap (A : Avro) (L : lua_State) (iface : Ptr) :
    ∃ extra, (new_raw_value_construct A L iface).2.heap = L.heap ++ extra := by
  by_cases hlen : L.stack.length < 2
  · rw [construct_fresh A L iface hlen]
    split
    · exact ⟨[], by simp⟩
    · exact ⟨[.AvroValue
        { value := (A.avro_generic_value_new L.avro iface).2, should_decref := true }], rfl⟩
  · rw [construct_refuses A L iface (by omega)]
    exact ⟨[], by simp⟩

theorem getElem?_append_of_some {α : Type} (l extra : List α) (i : Nat) (a : α)
    (h : l[i]? = some a) : (l ++ extra)[i]? = some a := by
  have hlt : i < l.length := by
    rcases Nat.lt_or_ge i l.length with hlt | hge
    · exact hlt
    · rw [List.getElem?_eq_none hge] at h
      cases h
  rw [List.getElem?_append_left hlt, h]

/-- The second half of `l_schema_new_raw_value` leaves every schema handle as it is. -/
theorem construct_schema_frame (A : Avro) (L : lua_State) (iface : Ptr) (id : Nat)
    (s : LuaAvroSchema) (hid : L.heap[id]? = some (.AvroSchema s)) :
    (new_raw_value_construct A L iface).2.heap[id]? = some (.AvroSchema s) := by
  obtain ⟨extra, he⟩ := construct_heap A L iface
  rw [he]
  exact getElem?_append_of_some _ _ _ _ hid

/-- The second half of `l_schema_new_raw_value` adds no derivation to the history and
constructs only with the interface it is given. -/
theorem construct_log (A : Avro) (L : lua_State) (iface : Ptr) :
    ∃ ev, (new_raw_value_construct A L iface).2.avro = L.avro ++ ev ∧ derivations ev = 0 ∧
      ∀ j ∈ construction_ifaces ev, j = iface := by
  by_cases hlen : L.stack.length < 2
  · rw [construct_fresh A L iface hlen]
    split
    · exact ⟨_, rfl, by simp [derivations], by simp [construction_ifaces]⟩
    · exact ⟨_, rfl, by simp [derivations], by simp [construction_ifaces]⟩
  · rw [construct_refuses A L iface (by omega)]
    exact ⟨[], by simp, by simp [derivations], by simp [construction_ifaces]⟩

theorem tolstring_heap (L : lua_State) (idx : Nat) : (lua_tolstring L idx).2.heap = L.heap := by
  unfold lua_tolstring
  split <;> rfl

theorem getmetatable_heap (L : lua_State) (idx : Int) :
    (lua_getmetatable L idx).2.heap = L.heap := by
  unfold lua_getmetatable
  split
  · split <;> rfl
  · rfl

theorem pushstring_heap (L : lua_State) (s : Option String) :
    (lua_pushstring L s).heap = L.heap := by
  cases s <;> rfl

/-- On an argument that is not a string, `l_schema_new` changes no userdata block and
adds none. -/
theorem schema_new_frame_other (A : Avro) (L : lua_State) (hns : lua_isstring L 1 = false) :
    (l_schema_new A L).2.heap = L.heap := by
  unfold l_schema_new
  rw [if_neg (by simp [hns])]
  split
  · have hm := getmetatable_heap L 1
    split
    · rename_i L1 heq
      rw [heq] at hm
      simp only at hm
      dsimp only
      split
      · split
        · simp [lua_pushlightuserdata, lua_push, lua_pop, lua_getfield_registry, hm]
        · simp [lua_pop, lua_getfield_registry, lua_push, hm]
      · simp [lua_error, lua_pushliteral, lua_getfield_registry, lua_push, hm]
    · rename_i L1 heq
      rw [heq] at hm
      simp only at hm
      simp [lua_error, lua_pushliteral, lua_push, hm]
  · simp [lua_error, lua_pushliteral, lua_push]

/-- The function `l_schema_new` changes no userdata block; it may add one. -/
theorem schema_new_frame (A : Avro) (L : lua_State) :
    ∃ extra, (l_schema_new A L).2.heap = L.heap ++ extra := by
  obtain ⟨stack, heap, log⟩ := L
  have hstr : ∀ (s : String) (rest : List TValue),
      ∃ extra, (l_schema_new A ⟨.string s :: rest, heap, log⟩).2.heap = heap ++ extra := by
    intro s rest
    rw [schema_new_string]
    cases primitive_of s with
    | some k =>
        simp only
        rw [schema_new_wrap_eq]
        exact ⟨[.AvroSchema { schema := matching_constructor A k log, iface := NULL }], rfl⟩
    | none =>
        simp only
        split
        · exact ⟨[], by simp [lua_avro_error, lua_error, pushstring_heap]⟩
        · rw [schema_new_wrap_eq]
          exact ⟨[.AvroSchema
            { schema := (A.avro_schema_from_json log s s.length).2, iface := NULL }], rfl⟩
  have hother : ∀ M : lua_State, M.heap = heap → lua_isstring M 1 = false →
      ∃ extra, (l_schema_new A M).2.heap = heap ++ extra := by
    intro M hM hns
    exact ⟨[], by simp [schema_new_frame_other A M hns, hM]⟩
  cases stack with
  | nil => exact hother _ rfl (by simp [lua_isstring])
  | cons x rest =>
      cases x with
      | string s => exact hstr s rest
      | number n =>
          rw [schema_new_number]
          exact hstr _ rest
      | nil => exact hother _ rfl (by simp [lua_isstring])
      | boolean b => exact hother _ rfl (by simp [lua_isstring])
      | lightuserdata p => exact hother _ rfl (by simp [lua_isstring])
      | userdata id => exact hother _ rfl (by simp [lua_isstring])
      | table t => exact hother _ rfl (by simp [lua_isstring])
      | other n => exact hother _ rfl (by simp [lua_isstring])

/-- The function `l_new_raw_schema` changes no userdata block; it may add one. -/
theorem new_raw_schema_frame (L : lua_State) :
    ∃ extra, (l_new_raw_schema L).2.heap = L.heap ++ extra := by
  unfold l_new_raw_schema
  dsimp only
  split
  · exact ⟨[], by simp [lua_error, lua_pushliteral, lua_push]⟩
  · exact ⟨[.AvroSchema { schema := lua_touserdata L 1, iface := NULL }],
      by simp [lua_avro_push_schema, record, lua_pushlightuserdata, lua_push]⟩

/-- The finalizer of schema handles leaves every schema handle but its argument as it
is. -/
theorem schema_gc_schema_frame (L : lua_State) (h : Nat) (t : LuaAvroSchema)
    (hh : L.heap[h]? = some (.AvroSchema t)) (harg : L.stack[0]? ≠ some (.userdata h)) :
    (l_schema_gc L).2.heap[h]? = some (.AvroSchema t) := by
  unfold l_schema_gc
  cases hc : luaL_checkudata_schema L 1 with
  | none => simpa using hh
  | some x =>
      obtain ⟨sid, s⟩ := x
      obtain ⟨h1, -⟩ := checkudata_schema_some L sid s hc
      have hne : sid ≠ h := by
        intro he
        subst he
        exact harg h1
      have hrec : ∀ (M : lua_State) (c : Call), (record M c).heap = M.heap := fun _ _ => rfl
      simp only
      rw [List.getElem?_set_ne hne]
      split <;> split <;> simp [hrec, hh]

/-- The function `l_schema_new_raw_value`, on whatever arguments, leaves a schema handle
with a cached interface as it is. -/
theorem new_raw_value_schema_frame (A : Avro) (L : lua_State) (h : Nat) (t : LuaAvroSchema)
    (hh : L.heap[h]? = some (.AvroSchema t)) (hi : t.iface ≠ NULL) :
    (l_schema_new_raw_value A L).2.heap[h]? = some (.AvroSchema t) := by
  cases hc : luaL_checkudata_schema L 1 with
  | none => simp [l_schema_new_raw_value, hc, hh]
  | some x =>
      obtain ⟨sid, s⟩ := x
      obtain ⟨h1, h2⟩ := checkudata_schema_some L sid s hc
      by_cases hd : iface_after_derive A L.avro s = NULL
      · rw [new_raw_value_derive_fails A L sid s h1 h2 hd]
        exact hh
      · rw [new_raw_value_eq A L sid s h1 h2 hd]
        apply construct_schema_frame
        by_cases he : sid = h
        · subst he
          rw [hh] at h2
          cases h2
          have hlt : sid < L.heap.length := by
            rcases Nat.lt_or_ge sid L.heap.length with hlt | hge
            · exact hlt
            · rw [List.getElem?_eq_none hge] at hh
              cases hh
          simp [hlt, iface_after_derive, hi]
        · simp [List.getElem?_set_ne he, hh]

/-- Every operation of the module, on whatever arguments, leaves a schema handle with a
cached interface as it is, the finalizer run on that very handle apart. -/
theorem op_schema_frame (A : Avro) (op : Op) (args : List TValue) (L : lua_State) (h : Nat)
    (t : LuaAvroSchema) (hh : L.heap[h]? = some (.AvroSchema t)) (hi : t.iface ≠ NULL)
    (hgc : op = .gc → args[0]? ≠ some (.userdata h)) :
    (op.run A args L).2.heap[h]? = some (.AvroSchema t) := by
  cases op with
  | Schema =>
      obtain ⟨extra, he⟩ := schema_new_frame A { L with stack := args }
      show (l_schema_new A { L with stack := args }).2.heap[h]? = _
      rw [he]
      exact getElem?_append_of_some _ _ _ _ hh
  | new_raw_schema =>
      obtain ⟨extra, he⟩ := new_raw_schema_frame { L with stack := args }
      show (l_new_raw_schema { L with stack := args }).2.heap[h]? = _
      rw [he]
      exact getElem?_append_of_some _ _ _ _ hh
  | name =>
      show (l_schema_name A { L with stack := args }).2.heap[h]? = _
      unfold l_schema_name
      split <;> simpa [pushstring_heap] using hh
  | type =>
      show (l_schema_type A { L with stack := args }).2.heap[h]? = _
      unfold l_schema_type
      split <;> simpa [lua_pushnumber, lua_push] using hh
  | gc => exact schema_gc_schema_frame { L with stack := args } h t hh (hgc rfl)
  | new_raw_value => exact new_raw_value_schema_frame A { L with stack := args } h t hh hi

/-- C5, the code at the failing input: after `h = Schema("int")` and `v = h:new_raw_value()`
the handle `v` owns the non-null value `obj 304`, and the codec would construct a value if
asked; yet `h:new_raw_value(v)` raises the argument error of line 149, calls neither
`avro_value_decref` nor `avro_generic_value_new`, and leaves every block as it was. -/
theorem reuse_of_owning_handle_is_refused :
    (handle_and_value (sample_codec 0 (.obj 200) 0)).heap
        = [.AvroSchema ⟨.obj 2, .obj 200⟩, .AvroValue ⟨⟨.obj 200, .obj 304⟩, true⟩] ∧
      ((sample_codec 0 (.obj 200) 0).avro_generic_value_new
        (handle_and_value (sample_codec 0 (.obj 200) 0)).avro (.obj 200)).1 = 0 ∧
      Op.run (sample_codec 0 (.obj 200) 0) .new_raw_value [.userdata 0, .userdata 1]
          (handle_and_value (sample_codec 0 (.obj 200) 0))
        = (.typerror 2 MT_AVRO_VALUE,
            { handle_and_value (sample_codec 0 (.obj 200) 0) with
              stack := [.userdata 0, .userdata 1] }) ∧
      value_releases
        (Op.run (sample_codec 0 (.obj 200) 0) .new_raw_value [.userdata 0, .userdata 1]
          (handle_and_value (sample_codec 0 (.obj 200) 0))).2.avro ⟨.obj 200, .obj 304⟩ = 0 := by
  decide

/-- A call of `new_raw_value` on a handle with a cached interface keeps the handle as it
is, derives nothing and constructs only with the cached interface. -/
theorem new_raw_value_cached (A : Avro) (L : lua_State) (h : Nat) (s : LuaAvroSchema)
    (extra : List TValue) (hh : L.heap[h]? = some (.AvroSchema s)) (hi : s.iface ≠ NULL) :
    (l_schema_new_raw_value A { L with stack := .userdata h :: extra }).2.heap[h]?
        = some (.AvroSchema s) ∧
      ∃ ev, (l_schema_new_raw_value A { L with stack := .userdata h :: extra }).2.avro
          = L.avro ++ ev ∧ derivations ev = 0 ∧ ∀ j ∈ construction_ifaces ev, j = s.iface := by
  have hia : iface_after_derive A L.avro s = s.iface := by simp [iface_after_derive, hi]
  have hd : derive_calls A L.avro s = [] := by simp [derive_calls, hi]
  have hset : L.heap.set h (.AvroSchema { schema := s.schema, iface := s.iface }) = L.heap :=
    set_eq_of_getElem? L.heap h _ hh
  have heq := new_raw_value_eq A { L with stack := .userdata h :: extra } h s (by simp)
    hh (by simpa [hia] using hi)
  simp only [hia, hd, hset, List.append_nil] at heq
  rw [heq]
  exact ⟨construct_schema_frame A _ s.iface h s hh, construct_log A _ s.iface⟩

/-- A sequence of `new_raw_value` calls on a handle with a cached interface. -/
theorem new_raw_value_seq_cached (A : Avro) (h : Nat) (s : LuaAvroSchema)
    (hi : s.iface ≠ NULL) (calls : List (List TValue)) :
    ∀ L : lua_State, L.heap[h]? = some (.AvroSchema s) →
      (new_raw_value_seq A h calls L).heap[h]? = some (.AvroSchema s) ∧
        ∃ ev, (new_raw_value_seq A h calls L).avro = L.avro ++ ev ∧ derivations ev = 0 ∧
          ∀ j ∈ construction_ifaces ev, j = s.iface := by
  induction calls with
  | nil =>
      intro L hh
      exact ⟨hh, [], by simp [new_raw_value_seq], by simp [derivations],
        by simp [construction_ifaces]⟩
  | cons extra calls ih =>
      intro L hh
      obtain ⟨h1, ev1, he1, hd1, hc1⟩ := new_raw_value_cached A L h s extra hh hi
      obtain ⟨h2, ev2, he2, hd2, hc2⟩ := ih _ h1
      refine ⟨h2, ev1 ++ ev2, ?_, ?_, ?_⟩
      · show (new_raw_value_seq A h calls _).avro = _
        rw [he2, he1, List.append_assoc]
      · rw [derivations_append, hd1, hd2]
      · intro j hj
        rw [construction_ifaces, List.filterMap_append, List.mem_append] at hj
        rcases hj with hj | hj
        · exact hc1 j hj
        · exact hc2 j hj

/-- C7: take a schema handle `h` whose interface is cached or is derived successfully by
a first `new_raw_value` call, and let any further `new_raw_value` calls on `h` follow, fresh
or with a handle to reuse, failing or not.  The whole history gained is the one derivation
of the first call, if none was cached, followed by calls among which there is no
derivation and whose constructions all use that one interface; the handle still holds it
at the end.  Moreover a cached interface stays in its handle under every operation of the
module, the finalizer of that handle apart, so operations in between change nothing. -/
theorem interface_derived_at_most_once (A : Avro) (L : lua_State) (h : Nat)
    (s : LuaAvroSchema) (first : List TValue) (calls : List (List TValue))
    (hh : L.heap[h]? = some (.AvroSchema s))
    (hi : iface_after_derive A L.avro s ≠ NULL) :
    (new_raw_value_seq A h (first :: calls) L).heap[h]?
        = some (.AvroSchema { schema := s.schema, iface := iface_after_derive A L.avro s }) ∧
      (∃ ev, (new_raw_value_seq A h (first :: calls) L).avro
          = L.avro ++ derive_calls A L.avro s ++ ev ∧
        derivations ev = 0 ∧
        ∀ j ∈ construction_ifaces ev, j = iface_after_derive A L.avro s) ∧
      derivations (new_raw_value_seq A h (first :: calls) L).avro
        = derivations L.avro + (if s.iface = NULL then 1 else 0) ∧
      (∀ (M : lua_State) (t : LuaAvroSchema) (op : Op) (args : List TValue),
        M.heap[h]? = some (.AvroSchema t) → t.iface ≠ NULL →
        (op = .gc → args[0]? ≠ some (.userdata h)) →
        (op.run A args M).2.heap[h]? = some (.AvroSchema t)) := by
  have hlt : h < L.heap.length := by
    rcases Nat.lt_or_ge h L.heap.length with hlt | hge
    · exact hlt
    · rw [List.getElem?_eq_none hge] at hh
      cases hh
  have heq := new_raw_value_eq A { L with stack := .userdata h :: first } h s (by simp) hh hi
  simp only at heq
  have hh1 : (l_schema_new_raw_value A { L with stack := .userdata h :: first }).2.heap[h]?
      = some (.AvroSchema { schema := s.schema, iface := iface_after_derive A L.avro s }) := by
    rw [heq]
    exact construct_schema_frame A _ _ h _ (by simp [hlt])
  obtain ⟨ev1, he1, hd1, hc1⟩ : ∃ ev,
      (l_schema_new_raw_value A { L with stack := .userdata h :: first }).2.avro
        = L.avro ++ derive_calls A L.avro s ++ ev ∧ derivations ev = 0 ∧
      ∀ j ∈ construction_ifaces ev, j = iface_after_derive A L.avro s := by
    rw [heq]
    exact construct_log A _ _
  obtain ⟨h2, ev2, he2, hd2, hc2⟩ := new_raw_value_seq_cached A h
    { schema := s.schema, iface := iface_after_derive A L.avro s } hi calls _ hh1
  have hlog : (new_raw_value_seq A h (first :: calls) L).avro
      = L.avro ++ derive_calls A L.avro s ++ (ev1 ++ ev2) := by
    show (new_raw_value_seq A h calls _).avro = _
    rw [he2, he1, List.append_assoc]
  have hdev : derivations (ev1 ++ ev2) = 0 := by
    rw [derivations_append, hd1, hd2]
  refine ⟨h2, ⟨ev1 ++ ev2, hlog, hdev, ?_⟩, ?_,
    fun M t op args hM ht hgc => op_schema_frame A op args M h t hM ht hgc⟩
  · intro j hj
    rw [construction_ifaces, List.filterMap_append, List.mem_append] at hj
    rcases hj with hj | hj
    · exact hc1 j hj
    · exact hc2 j hj
  · rw [hlog, derivations_append, derivations_append, hdev]
    unfold derive_calls
    split <;> simp [derivations]

/-- Witness for C7: a first fresh call derives the interface `obj 200`; a fresh call and a
reuse call follow. -/
theorem interface_derived_at_most_once_witness :
    derivations (new_raw_value_seq (sample_codec 0 (.obj 200) 0) 0
        [[], [], [.userdata 1]] ⟨[], [.AvroSchema ⟨.obj 1, NULL⟩], []⟩).avro
      = derivations [] + (if (⟨.obj 1, NULL⟩ : LuaAvroSchema).iface = NULL then 1 else 0) :=
  (interface_derived_at_most_once (sample_codec 0 (.obj 200) 0)
    ⟨[], [.AvroSchema ⟨.obj 1, NULL⟩], []⟩ 0 ⟨.obj 1, NULL⟩ [] [[], [.userdata 1]] rfl
    (by decide)).2.2.1

/-! ## Non-owning value handles -/

end AvroLegacy
